import Mathlib

/-!
Verification of the configuration-resolution engine of
`lib/StaticAnalyzer/Core/AnalyzerOptions.cpp`.

The Raw Store (`ConfigTable`, an `llvm::StringMap<std::string>` in the
source) is modelled as an association list with unique keys and exact-key
lookup.  Stateful accessors are modelled by explicit state passing; the
`assert`-on-bad-token aborts are modelled by returning `none`.
-/

namespace ClangSA

/-- The Raw Store backing the analyzer configuration (`ConfigTable`,
an `llvm::StringMap<std::string>` in the source), as an association list. -/
abbrev ConfigTable := List (String × String)

/-- Exact-key lookup in the Raw Store (`StringMap::find`). -/
def ConfigTable.find? : ConfigTable → String → Option String
  | [], _ => none
  | p :: rest, k => if p.1 = k then some p.2 else ConfigTable.find? rest k

/-- The `Config.insert(std::make_pair(Name, DefaultVal))` call used by the
global (scope-absent) lookup path of `getOptionAsString`: if the key is
already present the store is unchanged and the stored value is returned;
otherwise the pair is added and the new value is returned.  This mirrors
`StringMap::insert`, whose result iterator points at the existing entry
when insertion did not happen. -/
def ConfigTable.insertKV (cfg : ConfigTable) (k v : String) : ConfigTable × String :=
  match ConfigTable.find? cfg k with
  | some w => (cfg, w)
  | none => (cfg ++ [(k, v)], v)

/-- Global (scope-absent) `AnalyzerOptions::getOptionAsString`
(the `C == nullptr` branch, source lines 350-351): look the name up,
inserting `(Name, DefaultVal)` when absent, and return the stored value
together with the possibly grown store. -/
def getOptionAsString (cfg : ConfigTable) (name defaultVal : String) :
    String × ConfigTable :=
  let r := ConfigTable.insertKV cfg name defaultVal
  (r.2, r.1)

theorem ConfigTable.find?_append (c₁ c₂ : ConfigTable) (k : String) :
    ConfigTable.find? (c₁ ++ c₂) k =
      match ConfigTable.find? c₁ k with
      | some v => some v
      | none => ConfigTable.find? c₂ k := by
  induction c₁ with
  | nil => simp [ConfigTable.find?]
  | cons p rest ih =>
    by_cases h : p.1 = k <;> simp [ConfigTable.find?, h, ih]

theorem getOptionAsString_found (cfg : ConfigTable) (k d v : String)
    (h : ConfigTable.find? cfg k = some v) :
    getOptionAsString cfg k d = (v, cfg) := by
  simp [getOptionAsString, ConfigTable.insertKV, h]

theorem getOptionAsString_absent (cfg : ConfigTable) (k d : String)
    (h : ConfigTable.find? cfg k = none) :
    getOptionAsString cfg k d = (d, cfg ++ [(k, d)]) := by
  simp [getOptionAsString, ConfigTable.insertKV, h]

theorem getOptionAsString_stable (cfg : ConfigTable) (k d d' : String) :
    getOptionAsString (getOptionAsString cfg k d).2 k d' =
      ((getOptionAsString cfg k d).1, (getOptionAsString cfg k d).2) := by
  rcases h : ConfigTable.find? cfg k with _ | v
  · rw [getOptionAsString_absent cfg k d h]
    have hfind : ConfigTable.find? (cfg ++ [(k, d)]) k = some d := by
      rw [ConfigTable.find?_append, h]
      simp [ConfigTable.find?]
    rw [getOptionAsString_found _ k d' d hfind]
  · rw [getOptionAsString_found cfg k d v h, getOptionAsString_found cfg k d' v h]

/-- Claim C1: a global (scope-absent) `getOptionAsString` lookup of a key
absent from the Raw Store returns the caller-supplied default, inserts
`(key, default)` into the store, and every later global read of that key —
even with a different caller-supplied default — returns the value inserted
by the first read, not its own default. -/
theorem getOptionAsString_insert_on_read (cfg : ConfigTable) (k d d' : String)
    (h : ConfigTable.find? cfg k = none) :
    (getOptionAsString cfg k d).1 = d ∧
    ConfigTable.find? (getOptionAsString cfg k d).2 k = some d ∧
    (getOptionAsString (getOptionAsString cfg k d).2 k d').1 = d := by
  rw [getOptionAsString_absent cfg k d h]
  have hfind : ConfigTable.find? (cfg ++ [(k, d)]) k = some d := by
    rw [ConfigTable.find?_append, h]
    simp [ConfigTable.find?]
  refine ⟨rfl, hfind, ?_⟩
  rw [getOptionAsString_found _ k d' d hfind]

/-- Concrete instantiation of C1: key `"foo"` absent, first read with
default `"bar"` yields `"bar"` and makes it present; a second read with
default `"baz"` still yields `"bar"`. -/
theorem getOptionAsString_insert_on_read_witness :
    (getOptionAsString [] "foo" "bar").1 = "bar" ∧
    ConfigTable.find? (getOptionAsString [] "foo" "bar").2 "foo" = some "bar" ∧
    (getOptionAsString (getOptionAsString [] "foo" "bar").2 "foo" "baz").1 = "bar" :=
  getOptionAsString_insert_on_read [] "foo" "bar" "baz" (by decide)

/-- Index of the last occurrence of a dot in a character list, mirroring
`StringRef::rfind('.')` on the checker name (`StringRef::npos` becomes
`none`). -/
def lastDotIdx : List Char → Option Nat
  | [] => none
  | c :: rest =>
    match lastDotIdx rest with
    | some i => some (i + 1)
    | none => if c = '.' then some 0 else none

theorem lastDotIdx_lt {l : List Char} {i : Nat} (h : lastDotIdx l = some i) :
    i < l.length := by
  induction l generalizing i with
  | nil => simp [lastDotIdx] at h
  | cons c rest ih =>
    rw [lastDotIdx] at h
    rcases hr : lastDotIdx rest with _ | j
    · rw [hr] at h
      by_cases hc : c = '.'
      · rw [if_pos hc] at h
        cases h
        simp
      · rw [if_neg hc] at h
        cases h
    · rw [hr] at h
      cases h
      have := ih hr
      simp only [List.length_cons]
      omega

/-- The do-while loop body of `AnalyzerOptions::getCheckerOption`
(source lines 147-158), with the checker name carried as a character
list.  Each round looks up `CheckerName + ":" + OptionName`; on a miss the
name is truncated at its last dot (`rfind('.')` / `substr(0, Pos)`) and
the loop continues only while the truncated name is non-empty and
`SearchInParents` holds; otherwise the default is returned. -/
def getCheckerOptionAux (cfg : ConfigTable) (scope : List Char)
    (optName defaultVal : String) (searchInParents : Bool) : String :=
  match ConfigTable.find? cfg (String.mk scope ++ ":" ++ optName) with
  | some v => v
  | none =>
    match h : lastDotIdx scope with
    | none => defaultVal
    | some i =>
      if List.take i scope ≠ [] ∧ searchInParents = true then
        getCheckerOptionAux cfg (List.take i scope) optName defaultVal searchInParents
      else defaultVal
termination_by scope.length
decreasing_by
  have hi := lastDotIdx_lt h
  have h2 : (List.take i scope).length ≤ i := by
    rw [List.length_take]
    exact min_le_left _ _
  omega

/-- `AnalyzerOptions::getCheckerOption` (source lines 141-159). -/
def getCheckerOption (cfg : ConfigTable)
    (checkerName optionName defaultVal : String) (searchInParents : Bool) :
    String :=
  getCheckerOptionAux cfg checkerName.data optionName defaultVal searchInParents

theorem stringMkData (s : String) : String.mk s.data = s := by
  cases s
  rfl

theorem getCheckerOptionAux_hit (cfg : ConfigTable) (scope : List Char)
    (opt d v : String) (b : Bool)
    (h : ConfigTable.find? cfg (String.mk scope ++ ":" ++ opt) = some v) :
    getCheckerOptionAux cfg scope opt d b = v := by
  rw [getCheckerOptionAux, h]

theorem getCheckerOptionAux_nodot (cfg : ConfigTable) (scope : List Char)
    (opt d : String) (b : Bool)
    (h : ConfigTable.find? cfg (String.mk scope ++ ":" ++ opt) = none)
    (hd : lastDotIdx scope = none) :
    getCheckerOptionAux cfg scope opt d b = d := by
  rw [getCheckerOptionAux, h, hd]

theorem getCheckerOptionAux_step (cfg : ConfigTable) (scope : List Char)
    (opt d : String) (i : Nat)
    (h : ConfigTable.find? cfg (String.mk scope ++ ":" ++ opt) = none)
    (hd : lastDotIdx scope = some i) (hne : List.take i scope ≠ []) :
    getCheckerOptionAux cfg scope opt d true =
      getCheckerOptionAux cfg (List.take i scope) opt d true := by
  rw [getCheckerOptionAux, h, hd]
  simp [hne]

theorem getCheckerOptionAux_stop (cfg : ConfigTable) (scope : List Char)
    (opt d : String) (i : Nat) (b : Bool)
    (h : ConfigTable.find? cfg (String.mk scope ++ ":" ++ opt) = none)
    (hd : lastDotIdx scope = some i)
    (hstop : ¬(List.take i scope ≠ [] ∧ b = true)) :
    getCheckerOptionAux cfg scope opt d b = d := by
  rw [getCheckerOptionAux]
  simp only [h]
  split
  · rfl
  · rename_i i' heq
    rw [hd] at heq
    cases heq
    rw [if_neg hstop]

theorem getCheckerOptionAux_all_absent_bound (cfg : ConfigTable)
    (opt d : String) (b : Bool)
    (h : ∀ s : String, ConfigTable.find? cfg (s ++ ":" ++ opt) = none) :
    ∀ (n : Nat) (scope : List Char), scope.length ≤ n →
      getCheckerOptionAux cfg scope opt d b = d := by
  intro n
  induction n with
  | zero =>
    intro scope hlen
    rw [getCheckerOptionAux]
    simp only [h (String.mk scope)]
    split
    · rfl
    · rename_i i heq
      have hi := lastDotIdx_lt heq
      omega
  | succ n ih =>
    intro scope hlen
    rw [getCheckerOptionAux]
    simp only [h (String.mk scope)]
    split
    · rfl
    · rename_i i heq
      have hi := lastDotIdx_lt heq
      by_cases hc : List.take i scope ≠ [] ∧ b = true
      · rw [if_pos hc]
        refine ih (List.take i scope) ?_
        have h2 : (List.take i scope).length ≤ i := by
          rw [List.length_take]
          exact min_le_left _ _
        omega
      · rw [if_neg hc]

theorem getCheckerOptionAux_all_absent (cfg : ConfigTable) (scope : List Char)
    (opt d : String) (b : Bool)
    (h : ∀ s : String, ConfigTable.find? cfg (s ++ ":" ++ opt) = none) :
    getCheckerOptionAux cfg scope opt d b = d :=
  getCheckerOptionAux_all_absent_bound cfg opt d b h scope.length scope le_rfl

/-- Claim C2: checker-scoped resolution.  An exact scoped key always wins;
on a miss with `searchParents = true` the scope is truncated at its last
dot and the same option retried (so `"a.b:x" = "v"` resolves scope
`"a.b.c"`); when no scoped key for the option exists at any level the
caller default is returned; and with `searchParents = false` only the
exact scoped key is consulted before falling back to the default. -/
theorem getCheckerOption_resolution :
    (∀ (cfg : ConfigTable) (scope opt d v : String) (sp : Bool),
      ConfigTable.find? cfg (scope ++ ":" ++ opt) = some v →
      getCheckerOption cfg scope opt d sp = v) ∧
    (∀ (cfg : ConfigTable) (scope opt d : String) (i : Nat),
      ConfigTable.find? cfg (scope ++ ":" ++ opt) = none →
      lastDotIdx scope.data = some i → List.take i scope.data ≠ [] →
      getCheckerOption cfg scope opt d true =
        getCheckerOption cfg (String.mk (List.take i scope.data)) opt d true) ∧
    (∀ d : String, getCheckerOption [("a.b:x", "v")] "a.b.c" "x" d true = "v") ∧
    (∀ (cfg : ConfigTable) (scope opt d : String),
      (∀ s : String, ConfigTable.find? cfg (s ++ ":" ++ opt) = none) →
      getCheckerOption cfg scope opt d true = d) ∧
    (∀ (cfg : ConfigTable) (scope opt d : String),
      ConfigTable.find? cfg (scope ++ ":" ++ opt) = none →
      getCheckerOption cfg scope opt d false = d) := by
  refine ⟨?_, ?_, ?_, ?_, ?_⟩
  · intro cfg scope opt d v sp h
    refine getCheckerOptionAux_hit cfg scope.data opt d v sp ?_
    rw [stringMkData]
    exact h
  · intro cfg scope opt d i h hd hne
    have h' : ConfigTable.find? cfg (String.mk scope.data ++ ":" ++ opt) = none := by
      rw [stringMkData]
      exact h
    unfold getCheckerOption
    rw [getCheckerOptionAux_step cfg scope.data opt d i h' hd hne]
  · intro d
    unfold getCheckerOption
    rw [getCheckerOptionAux_step _ _ _ _ 3 (by decide) (by decide) (by decide)]
    exact getCheckerOptionAux_hit _ _ _ _ _ _ (by decide)
  · intro cfg scope opt d h
    refine getCheckerOptionAux_all_absent cfg scope.data opt d true ?_
    exact h
  · intro cfg scope opt d h
    have h' : ConfigTable.find? cfg (String.mk scope.data ++ ":" ++ opt) = none := by
      rw [stringMkData]
      exact h
    rcases hd : lastDotIdx scope.data with _ | i
    · exact getCheckerOptionAux_nodot cfg scope.data opt d false h' hd
    · refine getCheckerOptionAux_stop cfg scope.data opt d i false h' hd ?_
      simp

/-- Concrete instantiation of C2: scope `"a.b.c"`, store holding only
`"a.b:x" = "v"`, exact hit at level `"a.b"`; plus the empty-store default
case and the `searchParents = false` case. -/
theorem getCheckerOption_resolution_witness :
    getCheckerOption [("a.b:x", "v")] "a.b.c" "x" "dflt" true = "v" ∧
    getCheckerOption [] "a.b.c" "x" "dflt" true = "dflt" ∧
    getCheckerOption [("a.b:x", "v")] "a.b.c" "x" "dflt" false = "dflt" :=
  ⟨getCheckerOption_resolution.2.2.1 "dflt",
   getCheckerOption_resolution.2.2.2.1 [] "a.b.c" "x" "dflt"
     (fun s => by cases s; rfl),
   getCheckerOption_resolution.2.2.2.2 [("a.b:x", "v")] "a.b.c" "x" "dflt"
     (by decide)⟩

/-- Modelled from the spec: `UserModeKind` is declared in the header
`AnalyzerOptions.h`, which is not under `src/`; per §3 it is the unordered
two-token domain {Shallow, Deep}. -/
inductive UserModeKind where
  | UMK_Shallow
  | UMK_Deep
deriving DecidableEq, Repr

/-- Modelled from the spec: `IPAKind` is declared in the header
`AnalyzerOptions.h`, not under `src/`; per §3 it is totally ordered
None < BasicInlining < Inlining < DynamicDispatch < DynamicDispatchBifurcate. -/
inductive IPAKind where
  | IPAK_None
  | IPAK_BasicInlining
  | IPAK_Inlining
  | IPAK_DynamicDispatch
  | IPAK_DynamicDispatchBifurcate
deriving DecidableEq, Repr

/-- Ordinal of an `IPAKind`, realizing the total order of §3
(the underlying C enum value order). -/
def IPAKind.toNat : IPAKind → Nat
  | .IPAK_None => 0
  | .IPAK_BasicInlining => 1
  | .IPAK_Inlining => 2
  | .IPAK_DynamicDispatch => 3
  | .IPAK_DynamicDispatchBifurcate => 4

/-- Modelled from the spec: `CXXInlineableMemberKind` is declared in the
header `AnalyzerOptions.h`, not under `src/`; per §3 it is totally ordered
None < Constructors < Destructors < MemberFunctions. -/
inductive CXXInlineableMemberKind where
  | CIMK_None
  | CIMK_Constructors
  | CIMK_Destructors
  | CIMK_MemberFunctions
deriving DecidableEq, Repr

/-- Ordinal of a `CXXInlineableMemberKind`, realizing the total order of §3. -/
def CXXInlineableMemberKind.toNat : CXXInlineableMemberKind → Nat
  | .CIMK_None => 0
  | .CIMK_Constructors => 1
  | .CIMK_Destructors => 2
  | .CIMK_MemberFunctions => 3

/-- The `StringSwitch` in `getUserMode` (source lines 55-58). -/
def parseUserMode (s : String) : Option UserModeKind :=
  if s = "shallow" then some .UMK_Shallow
  else if s = "deep" then some .UMK_Deep
  else none

/-- The `StringSwitch` in `getIPAMode` (source lines 103-109). -/
def parseIPAKind (s : String) : Option IPAKind :=
  if s = "none" then some .IPAK_None
  else if s = "basic-inlining" then some .IPAK_BasicInlining
  else if s = "inlining" then some .IPAK_Inlining
  else if s = "dynamic" then some .IPAK_DynamicDispatch
  else if s = "dynamic-bifurcate" then some .IPAK_DynamicDispatchBifurcate
  else none

/-- The `StringSwitch` in `mayInlineCXXMemberFunction`
(source lines 125-130). -/
def parseCXXInlineableMemberKind (s : String) : Option CXXInlineableMemberKind :=
  if s = "constructors" then some .CIMK_Constructors
  else if s = "destructors" then some .CIMK_Destructors
  else if s = "methods" then some .CIMK_MemberFunctions
  else if s = "none" then some .CIMK_None
  else none

/-- Decimal value of a character-list consisting solely of decimal digits,
accumulated most-significant first, as `llvm::consumeUnsignedInteger` does
for radix 10; `none` as soon as a non-digit is seen. -/
def decDigitsVal : List Char → Nat → Option Nat
  | [], acc => some acc
  | c :: rest, acc =>
    if '0' ≤ c ∧ c ≤ '9' then
      decDigitsVal rest (acc * 10 + (c.toNat - Char.toNat '0'))
    else none

/-- `StringRef::getAsInteger(10, int &Res)` from the LLVM support library:
an optional leading minus sign, then at least one decimal digit and
nothing else, with the signed result required to fit in a 32-bit `int`
(the wider intermediate overflow checks are subsumed by that range check).
Returns `none` exactly when the C++ call reports failure. -/
def getAsIntegerInt (s : String) : Option Int :=
  match s.data with
  | '-' :: rest =>
    if rest = [] then none
    else
      match decDigitsVal rest 0 with
      | none => none
      | some n => if n ≤ 2 ^ 31 then some (-(n : Int)) else none
  | l =>
    if l = [] then none
    else
      match decDigitsVal l 0 with
      | none => none
      | some n => if n ≤ 2 ^ 31 - 1 then some ((n : Int)) else none

/-- Decimal rendering of an `int`, as `raw_svector_ostream << DefaultVal`
produces it in `getOptionAsInteger` (source lines 320-322). -/
def intToDecString (i : Int) : String :=
  Int.repr i

/-- The `int` → `unsigned` conversion performed when an `int` result is
stored into an `Optional<unsigned>` field (e.g. source line 383). -/
def uintOfInt (i : Int) : Nat :=
  (i % 2 ^ 32).toNat

/-- The file-local `static StringRef toString(bool b)` helper
(source line 139). -/
def boolToString (b : Bool) : String :=
  if b then "true" else "false"

/-- Memoization state of one configuration session: the Raw Store plus the
`Optional<...>` member cells of `AnalyzerOptions` that the modelled
accessors use (cells are declared in the header; their resolution logic is
in the source file). -/
structure AnalyzerOptions where
  Config : ConfigTable
  UserMode : Option UserModeKind
  IPAMode : Option IPAKind
  CXXMemberInliningMode : Option CXXInlineableMemberKind
  MaxInlinableSize : Option Nat
  MaxNodesPerTopLevelFunction : Option Nat
deriving DecidableEq, Repr

/-- A freshly constructed session: every memoized cell unresolved. -/
def AnalyzerOptions.init (cfg : ConfigTable) : AnalyzerOptions :=
  { Config := cfg
    UserMode := none
    IPAMode := none
    CXXMemberInliningMode := none
    MaxInlinableSize := none
    MaxNodesPerTopLevelFunction := none }

/-- `AnalyzerOptions::getOptionAsString` with the optional checker argument
(source lines 344-352): a present checker dispatches to `getCheckerOption`
(read-only), an absent one to the global insert-on-read path. -/
def getOptionAsStringC (cfg : ConfigTable) (name defaultVal : String)
    (C : Option String) (searchInParents : Bool) : String × ConfigTable :=
  match C with
  | some checker => (getCheckerOption cfg checker name defaultVal searchInParents, cfg)
  | none => getOptionAsString cfg name defaultVal

/-- The memoized `getOptionAsString` overload (source lines 354-362):
resolve the cell on first use, then serve from it. -/
def getOptionAsStringMemo (V : Option String) (cfg : ConfigTable)
    (name defaultVal : String) (C : Option String) (searchInParents : Bool) :
    String × Option String × ConfigTable :=
  match V with
  | some v => (v, V, cfg)
  | none =>
    let r := getOptionAsStringC cfg name defaultVal C searchInParents
    (r.1, some r.1, r.2)

/-- Unmemoized `AnalyzerOptions::getBooleanOption` (source lines 161-176):
fetch the textual value (default rendered by `toString`), then the
`StringSwitch` maps `"true"`/`"false"` and silently defaults otherwise. -/
def getBooleanOption (cfg : ConfigTable) (name : String) (defaultVal : Bool)
    (C : Option String) (searchInParents : Bool) : Bool × ConfigTable :=
  let r := getOptionAsStringC cfg name (boolToString defaultVal) C searchInParents
  (if r.1 = "true" then true
   else if r.1 = "false" then false
   else defaultVal, r.2)

/-- Memoized `AnalyzerOptions::getBooleanOption` overload
(source lines 178-184). -/
def getBooleanOptionMemo (V : Option Bool) (cfg : ConfigTable) (name : String)
    (defaultVal : Bool) (C : Option String) (searchInParents : Bool) :
    Bool × Option Bool × ConfigTable :=
  match V with
  | some b => (b, V, cfg)
  | none =>
    let r := getBooleanOption cfg name defaultVal C searchInParents
    (r.1, some r.1, r.2)

/-- `AnalyzerOptions::getOptionAsInteger` (source lines 317-333): render
the default in decimal, fetch, parse in base 10; a parse failure trips the
`assert` (modelled as `none`). -/
def getOptionAsInteger (cfg : ConfigTable) (name : String) (defaultVal : Int)
    (C : Option String) (searchInParents : Bool) : Option (Int × ConfigTable) :=
  let r := getOptionAsStringC cfg name (intToDecString defaultVal) C searchInParents
  match getAsIntegerInt r.1 with
  | some res => some (res, r.2)
  | none => none

/-- Memoized `AnalyzerOptions::getOptionAsUInt` (source lines 335-342);
the `int` result is stored into an `Optional<unsigned>` cell. -/
def getOptionAsUInt (V : Option Nat) (cfg : ConfigTable) (name : String)
    (defaultVal : Int) (C : Option String) (searchInParents : Bool) :
    Option (Nat × Option Nat × ConfigTable) :=
  match V with
  | some v => some (v, V, cfg)
  | none =>
    match getOptionAsInteger cfg name defaultVal C searchInParents with
    | none => none
    | some (res, cfg') => some (uintOfInt res, some (uintOfInt res), cfg')

/-- `AnalyzerOptions::getUserMode` (source lines 52-62): memoized
resolution of `"mode"` with default `"deep"`; a token outside
{shallow, deep} trips the `assert` (modelled as `none`). -/
def AnalyzerOptions.getUserMode (s : AnalyzerOptions) :
    Option (UserModeKind × AnalyzerOptions) :=
  match s.UserMode with
  | some m => some (m, s)
  | none =>
    let r := getOptionAsString s.Config "mode" "deep"
    match parseUserMode r.1 with
    | some m => some (m, { s with Config := r.2, UserMode := some m })
    | none => none

/-- `AnalyzerOptions::getIPAMode` (source lines 88-114): memoized; the
default string is `"inlining"` for Shallow and `"dynamic-bifurcate"` for
Deep user mode, then `"ipa"` is resolved against the five-token domain;
an unknown token trips the `assert` (modelled as `none`). -/
def AnalyzerOptions.getIPAMode (s : AnalyzerOptions) :
    Option (IPAKind × AnalyzerOptions) :=
  match s.IPAMode with
  | some m => some (m, s)
  | none =>
    match s.getUserMode with
    | none => none
    | some (highLevelMode, s₁) =>
      let defaultIPA : String :=
        match highLevelMode with
        | .UMK_Shallow => "inlining"
        | .UMK_Deep => "dynamic-bifurcate"
      let r := getOptionAsString s₁.Config "ipa" defaultIPA
      match parseIPAKind r.1 with
      | some m => some (m, { s₁ with Config := r.2, IPAMode := some m })
      | none => none

/-- `AnalyzerOptions::mayInlineCXXMemberFunction` (source lines 116-137):
below `IPAK_Inlining` it returns `false` without touching the
`"c++-inlining"` option; otherwise the memoized cell is resolved
(default `"destructors"`) and the result is `configured >= K` in the §3
order. -/
def AnalyzerOptions.mayInlineCXXMemberFunction (s : AnalyzerOptions)
    (K : CXXInlineableMemberKind) : Option (Bool × AnalyzerOptions) :=
  match s.getIPAMode with
  | none => none
  | some (ipa, s₁) =>
    if ipa.toNat < IPAKind.IPAK_Inlining.toNat then some (false, s₁)
    else
      match s₁.CXXMemberInliningMode with
      | some m => some (decide (K.toNat ≤ m.toNat), s₁)
      | none =>
        let r := getOptionAsString s₁.Config "c++-inlining" "destructors"
        match parseCXXInlineableMemberKind r.1 with
        | some m =>
          some (decide (K.toNat ≤ m.toNat),
            { s₁ with Config := r.2, CXXMemberInliningMode := some m })
        | none => none

/-- `AnalyzerOptions::getMaxInlinableSize` (source lines 370-386): the
default is 4 for Shallow and 100 for Deep user mode, overridable by the
`"max-inlinable-size"` key. -/
def AnalyzerOptions.getMaxInlinableSize (s : AnalyzerOptions) :
    Option (Nat × AnalyzerOptions) :=
  match s.MaxInlinableSize with
  | some v => some (v, s)
  | none =>
    match s.getUserMode with
    | none => none
    | some (highLevelMode, s₁) =>
      let defaultValue : Int :=
        match highLevelMode with
        | .UMK_Shallow => 4
        | .UMK_Deep => 100
      match getOptionAsInteger s₁.Config "max-inlinable-size" defaultValue none true with
      | none => none
      | some (res, cfg') =>
        some (uintOfInt res,
          { s₁ with Config := cfg', MaxInlinableSize := some (uintOfInt res) })

/-- `AnalyzerOptions::getMaxNodesPerTopLevelFunction`
(source lines 413-428): the default is 75000 for Shallow and 225000 for
Deep user mode, overridable by the `"max-nodes"` key. -/
def AnalyzerOptions.getMaxNodesPerTopLevelFunction (s : AnalyzerOptions) :
    Option (Nat × AnalyzerOptions) :=
  match s.MaxNodesPerTopLevelFunction with
  | some v => some (v, s)
  | none =>
    match s.getUserMode with
    | none => none
    | some (highLevelMode, s₁) =>
      let defaultValue : Int :=
        match highLevelMode with
        | .UMK_Shallow => 75000
        | .UMK_Deep => 225000
      match getOptionAsInteger s₁.Config "max-nodes" defaultValue none true with
      | none => none
      | some (res, cfg') =>
        some (uintOfInt res,
          { s₁ with Config := cfg', MaxNodesPerTopLevelFunction := some (uintOfInt res) })

/-- `AnalyzerOptions::shouldSynthesizeBodies` (source lines 430-432): a
cell-less boolean accessor for `"faux-bodies"` with default `true`. -/
def shouldSynthesizeBodies (cfg : ConfigTable) : Bool × ConfigTable :=
  getBooleanOption cfg "faux-bodies" true none true

/-- `StringRef::startswith` from the LLVM support library: a literal
character-prefix test. -/
def startswith (s pre : String) : Bool :=
  List.isPrefixOf pre.data s.data

/-- The filtering loop of `AnalyzerOptions::getRegisteredCheckers`
(source lines 43-48), written as the `push_back` loop of the source. -/
def getRegisteredCheckersLoop (checks : List String) (includeExperimental : Bool)
    (result : List String) : List String :=
  match checks with
  | [] => result
  | checkName :: rest =>
    if ¬ startswith checkName "debug." = true ∧
        (includeExperimental = true ∨ ¬ startswith checkName "alpha." = true) then
      getRegisteredCheckersLoop rest includeExperimental (result ++ [checkName])
    else
      getRegisteredCheckersLoop rest includeExperimental result

/-- `AnalyzerOptions::getRegisteredCheckers` (source lines 33-50),
parameterized by the externally supplied master list that the
`Checkers.inc` include expands to. -/
def getRegisteredCheckers (staticAnalyzerChecks : List String)
    (includeExperimental : Bool) : List String :=
  getRegisteredCheckersLoop staticAnalyzerChecks includeExperimental []

theorem getOptionAsString_find_other (cfg : ConfigTable) (k d k' : String)
    (hne : k' ≠ k) :
    ConfigTable.find? (getOptionAsString cfg k d).2 k' = ConfigTable.find? cfg k' := by
  rcases h : ConfigTable.find? cfg k with _ | v
  · rw [getOptionAsString_absent cfg k d h, ConfigTable.find?_append]
    rcases h2 : ConfigTable.find? cfg k' with _ | w
    · simp [ConfigTable.find?]
      intro heq
      exact absurd heq.symm hne
    · rfl
  · rw [getOptionAsString_found cfg k d v h]

theorem getUserMode_spec (s : AnalyzerOptions) (m : UserModeKind)
    (s' : AnalyzerOptions) (h : s.getUserMode = some (m, s')) :
    s'.UserMode = some m ∧
    s'.IPAMode = s.IPAMode ∧
    s'.CXXMemberInliningMode = s.CXXMemberInliningMode ∧
    s'.MaxInlinableSize = s.MaxInlinableSize ∧
    s'.MaxNodesPerTopLevelFunction = s.MaxNodesPerTopLevelFunction ∧
    ∀ k : String, k ≠ "mode" →
      ConfigTable.find? s'.Config k = ConfigTable.find? s.Config k := by
  rcases s with ⟨cfg, um, ipa, cimk, mis, mn⟩
  rcases um with _ | m0
  · rw [AnalyzerOptions.getUserMode] at h
    simp only at h
    rcases hp : parseUserMode (getOptionAsString cfg "mode" "deep").1 with _ | m1
    · rw [hp] at h
      cases h
    · rw [hp] at h
      cases h
      refine ⟨rfl, rfl, rfl, rfl, rfl, ?_⟩
      intro k hk
      exact getOptionAsString_find_other cfg "mode" "deep" k hk
  · rw [AnalyzerOptions.getUserMode] at h
    simp only at h
    cases h
    exact ⟨rfl, rfl, rfl, rfl, rfl, fun k _ => rfl⟩

theorem getIPAMode_spec (s : AnalyzerOptions) (m : IPAKind)
    (s' : AnalyzerOptions) (h : s.getIPAMode = some (m, s')) :
    s'.IPAMode = some m ∧
    s'.CXXMemberInliningMode = s.CXXMemberInliningMode ∧
    s'.MaxInlinableSize = s.MaxInlinableSize ∧
    s'.MaxNodesPerTopLevelFunction = s.MaxNodesPerTopLevelFunction ∧
    ∀ k : String, k ≠ "mode" → k ≠ "ipa" →
      ConfigTable.find? s'.Config k = ConfigTable.find? s.Config k := by
  rw [AnalyzerOptions.getIPAMode] at h
  rcases hm : s.IPAMode with _ | m0
  · rw [hm] at h
    simp only at h
    rcases hum : s.getUserMode with _ | p
    · rw [hum] at h
      cases h
    · rw [hum] at h
      rcases p with ⟨hlm, s₁⟩
      obtain ⟨h1, h2, h3, h4, h5, hfind⟩ := getUserMode_spec s hlm s₁ hum
      simp only at h
      generalize hgen : (match hlm with
        | UserModeKind.UMK_Shallow => "inlining"
        | UserModeKind.UMK_Deep => "dynamic-bifurcate") = dstr at h
      rcases hp : parseIPAKind (getOptionAsString s₁.Config "ipa" dstr).1 with _ | m1
      · rw [hp] at h
        cases h
      · rw [hp] at h
        cases h
        refine ⟨rfl, h3, h4, h5, ?_⟩
        intro k hk1 hk2
        rw [getOptionAsString_find_other s₁.Config "ipa" _ k hk2]
        exact hfind k hk1
  · rw [hm] at h
    simp only at h
    cases h
    exact ⟨hm, rfl, rfl, rfl, fun k _ _ => rfl⟩

/-- Claim C3: memoization.  For `getUserMode`, the generic memoized
boolean / unsigned / string getters, and the cell-less
`shouldSynthesizeBodies`, a second call on the same session returns the
same value; and once a cell is resolved the Scope Resolver is not
consulted again — a second call reads the cell even when the Raw Store has
been replaced by an arbitrary `cfg₂`, which it passes through untouched. -/
theorem memoized_getters_stable :
    (∀ (s : AnalyzerOptions) (v : UserModeKind) (s' : AnalyzerOptions),
      s.getUserMode = some (v, s') →
      s'.getUserMode = some (v, s') ∧
      ∀ cfg₂ : ConfigTable,
        AnalyzerOptions.getUserMode { s' with Config := cfg₂ } =
          some (v, { s' with Config := cfg₂ })) ∧
    (∀ (V : Option Bool) (cfg cfg₂ : ConfigTable) (name : String)
        (dv : Bool) (C : Option String) (sp : Bool),
      getBooleanOptionMemo (getBooleanOptionMemo V cfg name dv C sp).2.1 cfg₂ name dv C sp =
        ((getBooleanOptionMemo V cfg name dv C sp).1,
         (getBooleanOptionMemo V cfg name dv C sp).2.1, cfg₂)) ∧
    (∀ (V : Option Nat) (cfg : ConfigTable) (name : String) (dv : Int)
        (C : Option String) (sp : Bool) (u : Nat) (V' : Option Nat)
        (cfg' : ConfigTable),
      getOptionAsUInt V cfg name dv C sp = some (u, V', cfg') →
      ∀ cfg₂ : ConfigTable,
        getOptionAsUInt V' cfg₂ name dv C sp = some (u, V', cfg₂)) ∧
    (∀ (V : Option String) (cfg cfg₂ : ConfigTable) (name dv : String)
        (C : Option String) (sp : Bool),
      getOptionAsStringMemo (getOptionAsStringMemo V cfg name dv C sp).2.1 cfg₂ name dv C sp =
        ((getOptionAsStringMemo V cfg name dv C sp).1,
         (getOptionAsStringMemo V cfg name dv C sp).2.1, cfg₂)) ∧
    (∀ cfg : ConfigTable,
      shouldSynthesizeBodies (shouldSynthesizeBodies cfg).2 = shouldSynthesizeBodies cfg) := by
  refine ⟨?_, ?_, ?_, ?_, ?_⟩
  · intro s v s' h
    obtain ⟨h1, _, _, _, _, _⟩ := getUserMode_spec s v s' h
    constructor
    · rw [AnalyzerOptions.getUserMode, h1]
    · intro cfg₂
      rw [AnalyzerOptions.getUserMode]
      simp only [h1]
  · intro V cfg cfg₂ name dv C sp
    rcases V with _ | b <;> rfl
  · intro V cfg name dv C sp u V' cfg' h
    rcases V with _ | v
    · rw [getOptionAsUInt] at h
      rcases hi : getOptionAsInteger cfg name dv C sp with _ | p
      · rw [hi] at h
        cases h
      · rw [hi] at h
        rcases p with ⟨res, cfg''⟩
        cases h
        intro cfg₂
        rfl
    · cases h
      intro cfg₂
      rfl
  · intro V cfg cfg₂ name dv C sp
    rcases V with _ | v <;> rfl
  · intro cfg
    have hst : getOptionAsString (getOptionAsString cfg "faux-bodies" (boolToString true)).2
        "faux-bodies" (boolToString true) =
        getOptionAsString cfg "faux-bodies" (boolToString true) :=
      (getOptionAsString_stable cfg "faux-bodies" (boolToString true)
        (boolToString true)).trans Prod.mk.eta
    simp only [shouldSynthesizeBodies, getBooleanOption, getOptionAsStringC, hst]

/-- Concrete instantiation of C3: a resolved `"mode"` cell is served from
memory (also after the store is replaced), and a resolved unsigned cell is
served from memory with the new store passed through. -/
theorem memoized_getters_stable_witness :
    AnalyzerOptions.getUserMode
        ⟨[("mode", "deep")], some .UMK_Deep, none, none, none, none⟩ =
      some (.UMK_Deep, ⟨[("mode", "deep")], some .UMK_Deep, none, none, none, none⟩) ∧
    AnalyzerOptions.getUserMode ⟨[], some .UMK_Deep, none, none, none, none⟩ =
      some (.UMK_Deep, ⟨[], some .UMK_Deep, none, none, none, none⟩) ∧
    getOptionAsUInt (some 7) [] "n" 5 none true = some (7, some 7, []) :=
  ⟨(memoized_getters_stable.1 (AnalyzerOptions.init [])
      .UMK_Deep ⟨[("mode", "deep")], some .UMK_Deep, none, none, none, none⟩
      (by decide)).1,
   (memoized_getters_stable.1 (AnalyzerOptions.init [])
      .UMK_Deep ⟨[("mode", "deep")], some .UMK_Deep, none, none, none, none⟩
      (by decide)).2 [],
   memoized_getters_stable.2.2.1 none [("n", "7")] "n" 5 none true 7 (some 7) [("n", "7")]
      (by decide) []⟩

/-- Claim C4: closed-enum and integer decoding is fatal on bad input.
When the `"mode"` cell is unresolved and the fetched token is outside
{shallow, deep}, `getUserMode` hits its `assert` (modelled as `none`);
when the fetched string of `getOptionAsInteger` is not a valid base-10
signed integer, the `assert` likewise aborts — neither path ever returns
the caller default or any other value. -/
theorem fatal_on_bad_token :
    (∀ s : AnalyzerOptions, s.UserMode = none →
      parseUserMode (getOptionAsString s.Config "mode" "deep").1 = none →
      s.getUserMode = none) ∧
    (∀ (cfg : ConfigTable) (name : String) (dv : Int) (C : Option String) (sp : Bool),
      getAsIntegerInt (getOptionAsStringC cfg name (intToDecString dv) C sp).1 = none →
      getOptionAsInteger cfg name dv C sp = none) := by
  constructor
  · intro s hum hp
    rw [AnalyzerOptions.getUserMode, hum]
    simp only [hp]
  · intro cfg name dv C sp h
    rw [getOptionAsInteger]
    simp only [h]

/-- Concrete instantiation of C4: `"mode" = "sideways"` aborts
`getUserMode`, and a non-numeric `"opt" = "12a"` aborts
`getOptionAsInteger`. -/
theorem fatal_on_bad_token_witness :
    AnalyzerOptions.getUserMode (AnalyzerOptions.init [("mode", "sideways")]) = none ∧
    getOptionAsInteger [("opt", "12a")] "opt" 3 none true = none :=
  ⟨fatal_on_bad_token.1 (AnalyzerOptions.init [("mode", "sideways")])
      (by decide) (by decide),
   fatal_on_bad_token.2 [("opt", "12a")] "opt" 3 none true (by decide)⟩

/-- Claim C5: `mayInlineCXXMemberFunction K` returns `false` whenever the
interprocedural mode is below `IPAK_Inlining`, without resolving
`"c++-inlining"` (the cell and the stored key are untouched); otherwise the
resolved `CXXInlineableMemberKind` (default token `"destructors"`) is
compared with `K` in the §3 order, `configured >= K`; in particular a
configured `"methods"` makes `mayInlineCXXMemberFunction Destructors` true
and `"constructors"` makes it false. -/
theorem mayInlineCXXMemberFunction_spec :
    (∀ (s : AnalyzerOptions) (ipa : IPAKind) (s₁ : AnalyzerOptions)
        (K : CXXInlineableMemberKind),
      s.getIPAMode = some (ipa, s₁) → ipa.toNat < IPAKind.IPAK_Inlining.toNat →
      s.mayInlineCXXMemberFunction K = some (false, s₁) ∧
      s₁.CXXMemberInliningMode = s.CXXMemberInliningMode ∧
      ConfigTable.find? s₁.Config "c++-inlining" =
        ConfigTable.find? s.Config "c++-inlining") ∧
    (∀ (s : AnalyzerOptions) (ipa : IPAKind) (s₁ : AnalyzerOptions)
        (K m : CXXInlineableMemberKind),
      s.getIPAMode = some (ipa, s₁) → ¬ ipa.toNat < IPAKind.IPAK_Inlining.toNat →
      s₁.CXXMemberInliningMode = some m →
      s.mayInlineCXXMemberFunction K = some (decide (K.toNat ≤ m.toNat), s₁)) ∧
    (∀ (s : AnalyzerOptions) (ipa : IPAKind) (s₁ : AnalyzerOptions)
        (K m : CXXInlineableMemberKind),
      s.getIPAMode = some (ipa, s₁) → ¬ ipa.toNat < IPAKind.IPAK_Inlining.toNat →
      s₁.CXXMemberInliningMode = none →
      parseCXXInlineableMemberKind
        (getOptionAsString s₁.Config "c++-inlining" "destructors").1 = some m →
      (s.mayInlineCXXMemberFunction K).map Prod.fst =
        some (decide (K.toNat ≤ m.toNat))) ∧
    ((AnalyzerOptions.mayInlineCXXMemberFunction
        (AnalyzerOptions.init [("ipa", "inlining"), ("c++-inlining", "methods")])
        .CIMK_Destructors).map Prod.fst = some true) ∧
    ((AnalyzerOptions.mayInlineCXXMemberFunction
        (AnalyzerOptions.init [("ipa", "inlining"), ("c++-inlining", "constructors")])
        .CIMK_Destructors).map Prod.fst = some false) := by
  refine ⟨?_, ?_, ?_, by decide, by decide⟩
  · intro s ipa s₁ K hipa hlt
    obtain ⟨_, hi2, _, _, hifind⟩ := getIPAMode_spec s ipa s₁ hipa
    refine ⟨?_, hi2, hifind "c++-inlining" (by decide) (by decide)⟩
    simp only [AnalyzerOptions.mayInlineCXXMemberFunction, hipa]
    rw [if_pos hlt]
  · intro s ipa s₁ K m hipa hge hm
    simp only [AnalyzerOptions.mayInlineCXXMemberFunction, hipa]
    rw [if_neg hge]
    simp only [hm]
  · intro s ipa s₁ K m hipa hge hcell hp
    simp only [AnalyzerOptions.mayInlineCXXMemberFunction, hipa]
    rw [if_neg hge]
    simp only [hcell, hp]
    rfl

/-- Concrete instantiation of C5: with `"ipa" = "basic-inlining"` (below
Inlining) the answer is `false` and the `"c++-inlining"` cell stays
unresolved; with a resolved `"methods"` cell the ordinal comparison runs. -/
theorem mayInlineCXXMemberFunction_spec_witness :
    AnalyzerOptions.mayInlineCXXMemberFunction
        (AnalyzerOptions.init [("ipa", "basic-inlining")]) .CIMK_Destructors =
      some (false, ⟨[("ipa", "basic-inlining"), ("mode", "deep")],
        some .UMK_Deep, some .IPAK_BasicInlining, none, none, none⟩) ∧
    AnalyzerOptions.mayInlineCXXMemberFunction
        ⟨[], some .UMK_Deep, some .IPAK_Inlining, some .CIMK_MemberFunctions, none, none⟩
        .CIMK_Destructors =
      some (true, ⟨[], some .UMK_Deep, some .IPAK_Inlining,
        some .CIMK_MemberFunctions, none, none⟩) :=
  ⟨(mayInlineCXXMemberFunction_spec.1
      (AnalyzerOptions.init [("ipa", "basic-inlining")]) .IPAK_BasicInlining
      ⟨[("ipa", "basic-inlining"), ("mode", "deep")],
        some .UMK_Deep, some .IPAK_BasicInlining, none, none, none⟩
      .CIMK_Destructors (by decide) (by decide)).1,
   mayInlineCXXMemberFunction_spec.2.1
      ⟨[], some .UMK_Deep, some .IPAK_Inlining, some .CIMK_MemberFunctions, none, none⟩
      .IPAK_Inlining
      ⟨[], some .UMK_Deep, some .IPAK_Inlining, some .CIMK_MemberFunctions, none, none⟩
      .CIMK_Destructors .CIMK_MemberFunctions (by decide) (by decide) (by decide)⟩

/-- Claim C6: derived default selection for the numeric budgets.  With
only `"mode" = "shallow"` in the store, `getMaxNodesPerTopLevelFunction`
resolves to its Shallow baseline 75000 and `getMaxInlinableSize` to its
Shallow baseline 4; with `"mode" = "deep"` — or `"mode"` absent, the
default mode being deep — they resolve to 225000 and 100; and an explicit
`"max-nodes"` or `"max-inlinable-size"` key that parses to `r` overrides
the mode-selected baseline. -/
theorem derived_default_budgets :
    ((AnalyzerOptions.getMaxNodesPerTopLevelFunction
        (AnalyzerOptions.init [("mode", "shallow")])).map Prod.fst = some 75000) ∧
    ((AnalyzerOptions.getMaxInlinableSize
        (AnalyzerOptions.init [("mode", "shallow")])).map Prod.fst = some 4) ∧
    ((AnalyzerOptions.getMaxNodesPerTopLevelFunction
        (AnalyzerOptions.init [("mode", "deep")])).map Prod.fst = some 225000) ∧
    ((AnalyzerOptions.getMaxInlinableSize
        (AnalyzerOptions.init [("mode", "deep")])).map Prod.fst = some 100) ∧
    ((AnalyzerOptions.getMaxNodesPerTopLevelFunction
        (AnalyzerOptions.init [])).map Prod.fst = some 225000) ∧
    ((AnalyzerOptions.getMaxInlinableSize
        (AnalyzerOptions.init [])).map Prod.fst = some 100) ∧
    (∀ (s : AnalyzerOptions) (um : UserModeKind) (s₁ : AnalyzerOptions)
        (v : String) (r : Int),
      s.MaxNodesPerTopLevelFunction = none → s.getUserMode = some (um, s₁) →
      ConfigTable.find? s₁.Config "max-nodes" = some v → getAsIntegerInt v = some r →
      (s.getMaxNodesPerTopLevelFunction).map Prod.fst = some (uintOfInt r)) ∧
    (∀ (s : AnalyzerOptions) (um : UserModeKind) (s₁ : AnalyzerOptions)
        (v : String) (r : Int),
      s.MaxInlinableSize = none → s.getUserMode = some (um, s₁) →
      ConfigTable.find? s₁.Config "max-inlinable-size" = some v →
      getAsIntegerInt v = some r →
      (s.getMaxInlinableSize).map Prod.fst = some (uintOfInt r)) := by
  refine ⟨by decide, by decide, by decide, by decide, by decide, by decide, ?_, ?_⟩
  · intro s um s₁ v r hcell hum hv hr
    rw [AnalyzerOptions.getMaxNodesPerTopLevelFunction, hcell]
    simp only [hum]
    generalize (match um with
      | UserModeKind.UMK_Shallow => (75000 : Int)
      | UserModeKind.UMK_Deep => (225000 : Int)) = dv
    have hint : getOptionAsInteger s₁.Config "max-nodes" dv none true =
        some (r, s₁.Config) := by
      rw [getOptionAsInteger]
      simp only [getOptionAsStringC,
        getOptionAsString_found s₁.Config "max-nodes" (intToDecString dv) v hv, hr]
    rw [hint]
    rfl
  · intro s um s₁ v r hcell hum hv hr
    rw [AnalyzerOptions.getMaxInlinableSize, hcell]
    simp only [hum]
    generalize (match um with
      | UserModeKind.UMK_Shallow => (4 : Int)
      | UserModeKind.UMK_Deep => (100 : Int)) = dv
    have hint : getOptionAsInteger s₁.Config "max-inlinable-size" dv none true =
        some (r, s₁.Config) := by
      rw [getOptionAsInteger]
      simp only [getOptionAsStringC,
        getOptionAsString_found s₁.Config "max-inlinable-size" (intToDecString dv) v hv, hr]
    rw [hint]
    rfl

/-- Concrete instantiation of C6's override conjuncts: an explicit
`"max-nodes" = "123"` (resp. `"max-inlinable-size" = "9"`) beats the
Shallow baseline. -/
theorem derived_default_budgets_witness :
    (AnalyzerOptions.getMaxNodesPerTopLevelFunction
      (AnalyzerOptions.init [("mode", "shallow"), ("max-nodes", "123")])).map Prod.fst =
      some (uintOfInt 123) ∧
    (AnalyzerOptions.getMaxInlinableSize
      (AnalyzerOptions.init [("mode", "shallow"), ("max-inlinable-size", "9")])).map Prod.fst =
      some (uintOfInt 9) :=
  ⟨derived_default_budgets.2.2.2.2.2.2.1
      (AnalyzerOptions.init [("mode", "shallow"), ("max-nodes", "123")])
      .UMK_Shallow
      ⟨[("mode", "shallow"), ("max-nodes", "123")], some .UMK_Shallow,
        none, none, none, none⟩
      "123" 123 (by decide) (by decide) (by decide) (by decide),
   derived_default_budgets.2.2.2.2.2.2.2
      (AnalyzerOptions.init [("mode", "shallow"), ("max-inlinable-size", "9")])
      .UMK_Shallow
      ⟨[("mode", "shallow"), ("max-inlinable-size", "9")], some .UMK_Shallow,
        none, none, none, none⟩
      "9" 9 (by decide) (by decide) (by decide) (by decide)⟩

/-- Claim C7: `getIPAMode` resolves `"ipa"` with a mode-dependent default —
`"inlining"` when the user mode is Shallow, `"dynamic-bifurcate"` when it
is Deep — and an explicit `"ipa"` key that parses to `k` overrides that
fallback. -/
theorem getIPAMode_derived_default :
    (∀ (s : AnalyzerOptions) (um : UserModeKind) (s₁ : AnalyzerOptions),
      s.IPAMode = none → s.getUserMode = some (um, s₁) →
      ConfigTable.find? s₁.Config "ipa" = none →
      (s.getIPAMode).map Prod.fst =
        some (match um with
          | UserModeKind.UMK_Shallow => IPAKind.IPAK_Inlining
          | UserModeKind.UMK_Deep => IPAKind.IPAK_DynamicDispatchBifurcate)) ∧
    (∀ (s : AnalyzerOptions) (um : UserModeKind) (s₁ : AnalyzerOptions)
        (v : String) (k : IPAKind),
      s.IPAMode = none → s.getUserMode = some (um, s₁) →
      ConfigTable.find? s₁.Config "ipa" = some v → parseIPAKind v = some k →
      (s.getIPAMode).map Prod.fst = some k) ∧
    ((AnalyzerOptions.getIPAMode (AnalyzerOptions.init [("mode", "shallow")])).map
        Prod.fst = some IPAKind.IPAK_Inlining) ∧
    ((AnalyzerOptions.getIPAMode (AnalyzerOptions.init [("mode", "deep")])).map
        Prod.fst = some IPAKind.IPAK_DynamicDispatchBifurcate) := by
  refine ⟨?_, ?_, by decide, by decide⟩
  · intro s um s₁ hcell hum hfind
    rw [AnalyzerOptions.getIPAMode, hcell]
    simp only [hum]
    cases um
    · rw [getOptionAsString_absent s₁.Config "ipa" "inlining" hfind]
      have hp : parseIPAKind "inlining" = some IPAKind.IPAK_Inlining := by decide
      simp only [hp]
      rfl
    · rw [getOptionAsString_absent s₁.Config "ipa" "dynamic-bifurcate" hfind]
      have hp : parseIPAKind "dynamic-bifurcate" =
          some IPAKind.IPAK_DynamicDispatchBifurcate := by decide
      simp only [hp]
      rfl
  · intro s um s₁ v k hcell hum hv hp
    rw [AnalyzerOptions.getIPAMode, hcell]
    simp only [hum]
    generalize (match um with
      | UserModeKind.UMK_Shallow => "inlining"
      | UserModeKind.UMK_Deep => "dynamic-bifurcate") = dstr
    rw [getOptionAsString_found s₁.Config "ipa" dstr v hv]
    simp only [hp]
    rfl

/-- Concrete instantiation of C7: the Shallow fallback resolves to
Inlining when `"ipa"` is absent, and an explicit `"ipa" = "none"` key
overrides the Deep fallback. -/
theorem getIPAMode_derived_default_witness :
    (AnalyzerOptions.getIPAMode
      (AnalyzerOptions.init [("mode", "shallow")])).map Prod.fst =
      some IPAKind.IPAK_Inlining ∧
    (AnalyzerOptions.getIPAMode
      (AnalyzerOptions.init [("mode", "deep"), ("ipa", "none")])).map Prod.fst =
      some IPAKind.IPAK_None :=
  ⟨getIPAMode_derived_default.1 (AnalyzerOptions.init [("mode", "shallow")])
      .UMK_Shallow
      ⟨[("mode", "shallow")], some .UMK_Shallow, none, none, none, none⟩
      (by decide) (by decide) (by decide),
   getIPAMode_derived_default.2.1
      (AnalyzerOptions.init [("mode", "deep"), ("ipa", "none")])
      .UMK_Deep
      ⟨[("mode", "deep"), ("ipa", "none")], some .UMK_Deep, none, none, none, none⟩
      "none" .IPAK_None (by decide) (by decide) (by decide) (by decide)⟩

/-- Claim C8: boolean decoding.  A fetched string `"true"` yields `true`,
`"false"` yields `false`, and any other string silently yields the
caller-supplied default — `getBooleanOption` is total, with no error or
abort.  When the key is absent the rendered default round-trips to the
default itself. -/
theorem getBooleanOption_token_policy :
    (∀ (cfg : ConfigTable) (name : String) (dv : Bool) (C : Option String)
        (sp : Bool),
      ((getOptionAsStringC cfg name (boolToString dv) C sp).1 = "true" →
        (getBooleanOption cfg name dv C sp).1 = true) ∧
      ((getOptionAsStringC cfg name (boolToString dv) C sp).1 = "false" →
        (getBooleanOption cfg name dv C sp).1 = false) ∧
      ((getOptionAsStringC cfg name (boolToString dv) C sp).1 ≠ "true" →
        (getOptionAsStringC cfg name (boolToString dv) C sp).1 ≠ "false" →
        (getBooleanOption cfg name dv C sp).1 = dv)) ∧
    (∀ dv : Bool, (getBooleanOption [("k", "garbage")] "k" dv none true).1 = dv) ∧
    (∀ (cfg : ConfigTable) (name : String) (dv : Bool),
      ConfigTable.find? cfg name = none →
      (getBooleanOption cfg name dv none true).1 = dv) := by
  refine ⟨?_, ?_, ?_⟩
  · intro cfg name dv C sp
    refine ⟨?_, ?_, ?_⟩
    · intro h
      simp only [getBooleanOption]
      rw [if_pos h]
    · intro h
      have hne : (getOptionAsStringC cfg name (boolToString dv) C sp).1 ≠ "true" := by
        rw [h]
        decide
      simp only [getBooleanOption]
      rw [if_neg hne, if_pos h]
    · intro h1 h2
      simp only [getBooleanOption]
      rw [if_neg h1, if_neg h2]
  · intro dv
    cases dv <;> decide
  · intro cfg name dv hfind
    cases dv
    · have hb : boolToString false = "false" := rfl
      simp only [getBooleanOption, getOptionAsStringC, hb,
        getOptionAsString_absent cfg name "false" hfind]
      simp
    · have hb : boolToString true = "true" := rfl
      simp only [getBooleanOption, getOptionAsStringC, hb,
        getOptionAsString_absent cfg name "true" hfind]
      simp

/-- Concrete instantiation of C8: `"true"`, `"false"` and garbage tokens,
and the absent-key case. -/
theorem getBooleanOption_token_policy_witness :
    (getBooleanOption [("k", "true")] "k" false none true).1 = true ∧
    (getBooleanOption [("k", "false")] "k" true none true).1 = false ∧
    (getBooleanOption [("k", "garbage")] "k" true none true).1 = true ∧
    (getBooleanOption [] "k" false none true).1 = false :=
  ⟨(getBooleanOption_token_policy.1 [("k", "true")] "k" false none true).1
      (by decide),
   (getBooleanOption_token_policy.1 [("k", "false")] "k" true none true).2.1
      (by decide),
   (getBooleanOption_token_policy.1 [("k", "garbage")] "k" true none true).2.2
      (by decide) (by decide),
   getBooleanOption_token_policy.2.2 [] "k" false (by decide)⟩

theorem getRegisteredCheckersLoop_filter (b : Bool) (l : List String) :
    ∀ acc : List String,
      getRegisteredCheckersLoop l b acc =
        acc ++ l.filter (fun n =>
          decide (¬ startswith n "debug." = true ∧
            (b = true ∨ ¬ startswith n "alpha." = true))) := by
  induction l with
  | nil =>
    intro acc
    simp [getRegisteredCheckersLoop]
  | cons n rest ih =>
    intro acc
    rw [getRegisteredCheckersLoop]
    by_cases hc : ¬ startswith n "debug." = true ∧
        (b = true ∨ ¬ startswith n "alpha." = true)
    · have hp : decide (¬ startswith n "debug." = true ∧
          (b = true ∨ ¬ startswith n "alpha." = true)) = true := decide_eq_true hc
      rw [if_pos hc, ih, List.filter_cons]
      simp only [hp]
      simp
    · have hp : decide (¬ startswith n "debug." = true ∧
          (b = true ∨ ¬ startswith n "alpha." = true)) = false := decide_eq_false hc
      rw [if_neg hc, ih, List.filter_cons]
      simp only [hp]
      simp

/-- Claim C9: `getRegisteredCheckers` keeps exactly the names not starting
with `"debug."` and — unless `includeExperimental` — not starting with
`"alpha."`, in the original order and without deduplication (it is the
order-preserving filter of the master list); concretely,
`["debug.X", "alpha.Y", "core.Z"]` filters to `["core.Z"]` and, with
experimental checkers included, to `["alpha.Y", "core.Z"]`. -/
theorem getRegisteredCheckers_filter :
    (∀ (l : List String) (b : Bool),
      getRegisteredCheckers l b =
        l.filter (fun n =>
          decide (¬ startswith n "debug." = true ∧
            (b = true ∨ ¬ startswith n "alpha." = true)))) ∧
    (getRegisteredCheckers ["debug.X", "alpha.Y", "core.Z"] false = ["core.Z"]) ∧
    (getRegisteredCheckers ["debug.X", "alpha.Y", "core.Z"] true =
      ["alpha.Y", "core.Z"]) := by
  refine ⟨?_, by decide, by decide⟩
  intro l b
  rw [getRegisteredCheckers, getRegisteredCheckersLoop_filter]
  rfl

/-- Claim C10: checker-scoped lookups (`C` present) never mutate the Raw
Store — the string, boolean and integer getters all return it unchanged,
whether a key was found at some fallback level or the default was used —
while a global lookup of an absent key does mutate it (insert-on-read). -/
theorem scoped_lookup_frame :
    (∀ (cfg : ConfigTable) (name d c : String) (sp : Bool),
      (getOptionAsStringC cfg name d (some c) sp).2 = cfg) ∧
    (∀ (cfg : ConfigTable) (name : String) (dv : Bool) (c : String) (sp : Bool),
      (getBooleanOption cfg name dv (some c) sp).2 = cfg) ∧
    (∀ (cfg : ConfigTable) (name : String) (dv : Int) (c : String) (sp : Bool)
        (r : Int × ConfigTable),
      getOptionAsInteger cfg name dv (some c) sp = some r → r.2 = cfg) ∧
    (∀ (cfg : ConfigTable) (name d : String),
      ConfigTable.find? cfg name = none →
      ConfigTable.find? (getOptionAsStringC cfg name d none true).2 name = some d) := by
  refine ⟨fun cfg name d c sp => rfl, fun cfg name dv c sp => rfl, ?_, ?_⟩
  · intro cfg name dv c sp r h
    rw [getOptionAsInteger] at h
    rcases hi : getAsIntegerInt
        (getOptionAsStringC cfg name (intToDecString dv) (some c) sp).1 with _ | res
    · rw [hi] at h
      cases h
    · rw [hi] at h
      cases h
      rfl
  · intro cfg name d hfind
    have habs := getOptionAsString_absent cfg name d hfind
    simp only [getOptionAsStringC, habs]
    rw [ConfigTable.find?_append, hfind]
    simp [ConfigTable.find?]

/-- Concrete instantiation of C10: a scoped integer lookup that hits
`"a:x" = "5"` leaves the store untouched, and a global absent-key lookup
inserts. -/
theorem scoped_lookup_frame_witness :
    ((5 : Int), ([("a:x", "5")] : ConfigTable)).2 = [("a:x", "5")] ∧
    ConfigTable.find? (getOptionAsStringC [] "k" "v" none true).2 "k" = some "v" := by
  have h1 : getCheckerOption [("a:x", "5")] "a" "x" (intToDecString 7) true = "5" :=
    getCheckerOptionAux_hit _ _ _ _ _ _ (by decide)
  have h2 : getOptionAsInteger [("a:x", "5")] "x" 7 (some "a") true =
      some (5, [("a:x", "5")]) := by
    rw [getOptionAsInteger]
    simp only [getOptionAsStringC, h1]
    rfl
  exact ⟨scoped_lookup_frame.2.2.1 [("a:x", "5")] "x" 7 "a" true
      (5, [("a:x", "5")]) h2,
    scoped_lookup_frame.2.2.2 [] "k" "v" (by decide)⟩

end ClangSA
